import Mathlib

/-!
Verification of the video-safety analysis worker
(`src/backend/src/workers/video_analyzer.py`) against its natural-language
specification.  Every definition below is a shallow embedding of the
corresponding Python code, translated line by line from the source file;
comments cite the source lines.  Machine integers are modelled as `Nat`
(the values in play are JSON integers constrained to `0..100` by the
response schema, and second counts), dictionaries as structures with
`Option`-valued fields (a `none` field models an absent key, `Option.getD`
models `dict.get(key, default)`), and Python exceptions as `Except` /
explicit fallback branches.
-/

namespace VideoSafety

/-! ### Age recommendation calculator

Embedding of `calculate_age_recommendation` (video_analyzer.py lines
505-526).  The Python function takes four ints (scores) and a boolean and
threads a `min_age` accumulator through three `if/elif` ladders plus a
profanity check. -/

/-- Translation of `calculate_age_recommendation(violence_score,
scary_score, nsfw_score, profanity)`, lines 505-526 of the source.
Scores are modelled as `Int` (Python ints). -/
def calculate_age_recommendation (violence_score scary_score nsfw_score : Int)
    (profanity : Bool) : Int :=
  let min_age : Int := 3
  let min_age : Int :=
    if nsfw_score > 60 then max min_age 18
    else if nsfw_score > 40 then max min_age 16
    else if nsfw_score > 20 then max min_age 13
    else if nsfw_score > 10 then max min_age 10
    else min_age
  let min_age : Int :=
    if violence_score > 70 then max min_age 13
    else if violence_score > 50 then max min_age 10
    else if violence_score > 30 then max min_age 7
    else if violence_score > 15 then max min_age 5
    else min_age
  let min_age : Int :=
    if scary_score > 70 then max min_age 13
    else if scary_score > 50 then max min_age 10
    else if scary_score > 30 then max min_age 7
    else if scary_score > 15 then max min_age 5
    else min_age
  let min_age : Int := if profanity then max min_age 10 else min_age
  min_age

/-- The NSFW threshold ladder of lines 509-512, as a standalone bonus
(0 when no threshold is crossed). -/
def nsfwBonus (n : Int) : Int :=
  if n > 60 then 18 else if n > 40 then 16 else if n > 20 then 13
  else if n > 10 then 10 else 0

/-- The violence/scary threshold ladder of lines 514-517 (and 519-522),
as a standalone bonus (0 when no threshold is crossed). -/
def violenceBonus (v : Int) : Int :=
  if v > 70 then 13 else if v > 50 then 10 else if v > 30 then 7
  else if v > 15 then 5 else 0

/-- The profanity bump of line 524 as a standalone bonus. -/
def profanityBonus (p : Bool) : Int := if p then 10 else 0

theorem nsfw_step (a n : Int) (ha : 0 ≤ a) :
    (if n > 60 then max a 18 else if n > 40 then max a 16
     else if n > 20 then max a 13 else if n > 10 then max a 10 else a) =
      max a (nsfwBonus n) := by
  unfold nsfwBonus
  split_ifs <;> first | rfl | exact (max_eq_left ha).symm

theorem violence_step (a v : Int) (ha : 0 ≤ a) :
    (if v > 70 then max a 13 else if v > 50 then max a 10
     else if v > 30 then max a 7 else if v > 15 then max a 5 else a) =
      max a (violenceBonus v) := by
  unfold violenceBonus
  split_ifs <;> first | rfl | exact (max_eq_left ha).symm

theorem profanity_step (a : Int) (p : Bool) (ha : 0 ≤ a) :
    (if p then max a 10 else a) = max a (profanityBonus p) := by
  cases p <;> simp [profanityBonus, max_eq_left ha]

/-- The accumulator chain of `calculate_age_recommendation` is the maximum
of the independent ladders over the floor 3. -/
theorem calculate_age_recommendation_eq (v s n : Int) (p : Bool) :
    calculate_age_recommendation v s n p =
      max (max (max (max 3 (nsfwBonus n)) (violenceBonus v))
        (violenceBonus s)) (profanityBonus p) := by
  unfold calculate_age_recommendation
  dsimp only
  rw [nsfw_step 3 n (by norm_num)]
  rw [violence_step _ v (le_trans (by norm_num : (0:Int) ≤ 3) (le_max_left _ _))]
  rw [violence_step _ s (le_trans
    (le_trans (by norm_num : (0:Int) ≤ 3) (le_max_left _ _)) (le_max_left _ _))]
  rw [profanity_step _ p (le_trans (le_trans
    (le_trans (by norm_num : (0:Int) ≤ 3) (le_max_left _ _)) (le_max_left _ _))
    (le_max_left _ _))]

theorem nsfwBonus_mono {n n' : Int} (h : n ≤ n') : nsfwBonus n ≤ nsfwBonus n' := by
  unfold nsfwBonus; split_ifs <;> omega

theorem violenceBonus_mono {v v' : Int} (h : v ≤ v') :
    violenceBonus v ≤ violenceBonus v' := by
  unfold violenceBonus; split_ifs <;> omega

theorem profanityBonus_mono {p p' : Bool} (h : p = true → p' = true) :
    profanityBonus p ≤ profanityBonus p' := by
  cases p <;> cases p' <;> simp_all [profanityBonus]

/-- C9: `calculate_age_recommendation` is monotone non-decreasing in each of
its four inputs independently: raising any of the three scores, or turning
profanity from `false` to `true`, never lowers the returned minimum age.
(Stated as joint monotonicity, which subsumes each single-input case by
fixing the remaining inputs with reflexive hypotheses.) -/
theorem calculate_age_recommendation_monotone
    (v v' s s' n n' : Int) (p p' : Bool)
    (hv : v ≤ v') (hs : s ≤ s') (hn : n ≤ n') (hp : p = true → p' = true) :
    calculate_age_recommendation v s n p ≤
      calculate_age_recommendation v' s' n' p' := by
  rw [calculate_age_recommendation_eq, calculate_age_recommendation_eq]
  exact max_le_max (max_le_max (max_le_max (max_le_max le_rfl
    (nsfwBonus_mono hn)) (violenceBonus_mono hv)) (violenceBonus_mono hs))
    (profanityBonus_mono hp)

/-- Concrete instance of C9: raising the violence score from 20 to 80 and
enabling profanity does not decrease the recommended age (here 5 ≤ 13). -/
theorem calculate_age_recommendation_monotone_witness :
    calculate_age_recommendation 20 15 5 false ≤
      calculate_age_recommendation 80 15 5 true :=
  calculate_age_recommendation_monotone 20 80 15 15 5 5 false true
    (by norm_num) le_rfl le_rfl (by simp)

/-! ### Strategy selection (direct vs. chunked analysis)

Embedding of the duration-based dispatch in `analyze_video`
(video_analyzer.py lines 529-562) together with the constants of lines
38-39.  `analyze_video` fetches the duration (`None` on failure, modelled
as `Option Nat`); when known and strictly greater than
`MAX_DURATION_FOR_FULL_ANALYSIS` it computes
`num_chunks = duration // CHUNK_DURATION_SECONDS + 1` and runs chunked
analysis, otherwise it runs direct analysis.  (Python's
`if duration_seconds:` also treats a 0-second duration as unknown; a 0
duration selects direct analysis in either reading, so the embedding
folds the two.) -/

/-- Line 38: `60 * 60` seconds (60 minutes). -/
def MAX_DURATION_FOR_FULL_ANALYSIS : Nat := 60 * 60

/-- Line 39: `10 * 60` seconds (10 minutes per chunk). -/
def CHUNK_DURATION_SECONDS : Nat := 10 * 60

/-- Which analysis path `analyze_video` takes, and with how many chunks. -/
inductive Strategy where
  | direct : Strategy
  | chunked (num_chunks : Nat) : Strategy
deriving DecidableEq, Repr

/-- The duration-based dispatch of `analyze_video` (lines 538-562): `none`
models a failed duration fetch.  The chunk count is the one printed at line
545 and used by `analyze_video_chunked` at line 245 (both compute
`duration_seconds // CHUNK_DURATION_SECONDS + 1`). -/
def analyze_video_strategy : Option Nat → Strategy
  | none => .direct
  | some duration_seconds =>
    if duration_seconds > MAX_DURATION_FOR_FULL_ANALYSIS then
      .chunked (duration_seconds / CHUNK_DURATION_SECONDS + 1)
    else .direct

/-- C2 counterexample: a 2000-second video (33 min 20 s) is analyzed
directly, whereas the claim demands segmented analysis with
`floor(2000/1200)+1 = 2` segments for every duration above 1800 s.  The
code's ceiling is `MAX_DURATION_FOR_FULL_ANALYSIS = 3600`, not 1800. -/
theorem analyze_video_strategy_2000_direct :
    analyze_video_strategy (some 2000) = Strategy.direct ∧
      Strategy.direct ≠ Strategy.chunked 2 := by
  exact ⟨rfl, by simp⟩

/-- C2 (amended): a known duration `d ≤ 3600` (inclusive ceiling) selects
direct analysis; `d > 3600` selects chunked analysis with
`floor(d/600)+1` chunks (10-minute chunks); an unknown duration selects
direct analysis. -/
theorem analyze_video_strategy_spec (d : Nat) :
    (d ≤ 3600 → analyze_video_strategy (some d) = Strategy.direct) ∧
    (d > 3600 → analyze_video_strategy (some d) =
      Strategy.chunked (d / 600 + 1)) ∧
    analyze_video_strategy none = Strategy.direct := by
  refine ⟨fun h => ?_, fun h => ?_, rfl⟩
  · simp [analyze_video_strategy, MAX_DURATION_FOR_FULL_ANALYSIS]
    omega
  · simp only [analyze_video_strategy, MAX_DURATION_FOR_FULL_ANALYSIS,
      CHUNK_DURATION_SECONDS]
    rw [if_pos (by omega)]

/-- Concrete instances of the amended C2: a 50-minute video is direct, a
2-hour video is split into 13 chunks. -/
theorem analyze_video_strategy_spec_witness :
    analyze_video_strategy (some 3000) = Strategy.direct ∧
      analyze_video_strategy (some 7200) = Strategy.chunked 13 :=
  ⟨(analyze_video_strategy_spec 3000).1 (by norm_num),
   by have := (analyze_video_strategy_spec 7200).2.1 (by norm_num)
      simpa using this⟩

/-! ### Job store: claim step and stale-reset sweep

The worker talks to a `reports` table through the Supabase client.  We
model the table as a list of rows and `update(fields).eq(col, val)` /
`.lt(col, val)` as a map that rewrites exactly the rows matching the
filters.  Timestamps (`updated_at`, the `stale_cutoff`) are seconds as
`Int`; the Python code compares ISO-8601 strings, which for a fixed format
orders identically to the underlying instants. -/

inductive JobStatus where
  | pending | processing | completed | failed
deriving DecidableEq, Repr

/-- One row of the `reports` table (the columns this core touches). -/
structure Job where
  id : Nat
  status : JobStatus
  video_title : Option String := none
  error_message : Option String := none
  updated_at : Int := 0
deriving DecidableEq, Repr

/-- The claim step of `analyze_video` (video_analyzer.py lines 571-574; the
chunked path at lines 220-223 issues the same write):

    update({'status': 'processing', 'video_title': video_title})
      .eq('id', report_id)

The only filter is `id = report_id`; there is no condition on the current
status. -/
def claim_update (store : List Job) (report_id : Nat) (video_title : String) :
    List Job :=
  store.map fun j =>
    if j.id = report_id then
      { j with status := .processing, video_title := some video_title }
    else j

/-- C1 counterexample: the claim step's write carries no `status =
'pending'` condition, so a job already in `completed` status is overwritten
to `processing` — the claim asserts this can never happen. -/
theorem claim_update_overwrites_completed :
    (claim_update [{ id := 1, status := .completed }] 1 "title").map
      Job.status = [JobStatus.processing] ∧
    JobStatus.completed ≠ JobStatus.pending := by
  exact ⟨rfl, by simp⟩

/-- C1 (amended): the claim step unconditionally rewrites every row whose
id matches to `processing` (also storing the fetched title), whatever its
current status — including `completed`, `failed` or `processing` — and
leaves non-matching rows unchanged.  No conditional (status-guarded)
update exists, so the step cannot skip an already-claimed job. -/
theorem claim_update_spec (store : List Job) (report_id : Nat)
    (video_title : String) (j : Job) (hj : j ∈ store) :
    (j.id = report_id →
      { j with status := .processing, video_title := some video_title } ∈
        claim_update store report_id video_title) ∧
    (j.id ≠ report_id → j ∈ claim_update store report_id video_title) := by
  constructor
  · intro h
    exact List.mem_map.mpr ⟨j, hj, by simp [h]⟩
  · intro h
    exact List.mem_map.mpr ⟨j, hj, by simp [h]⟩

/-- Concrete instance of the amended C1: a `failed` job with a matching id
is rewritten to `processing` by the claim step. -/
theorem claim_update_spec_witness :
    ({ id := 7, status := .processing, video_title := some "t" } : Job) ∈
      claim_update [{ id := 7, status := .failed }] 7 "t" :=
  (claim_update_spec [{ id := 7, status := .failed }] 7 "t"
    { id := 7, status := .failed } (by simp)).1 rfl

/-- The stale-reset sweep of `process_pending_reports` (video_analyzer.py
lines 854-861):

    stale_cutoff = (datetime.now() - timedelta(minutes=15)).isoformat()
    update({'status': 'pending',
            'error_message': 'Reset: was stuck in processing for >15 min'})
      .eq('status', 'processing').lt('updated_at', stale_cutoff)

`now` is the current instant in seconds; the cutoff is 15 minutes (900 s)
before it. -/
def stale_sweep (store : List Job) (now : Int) : List Job :=
  let stale_cutoff := now - 15 * 60
  store.map fun j =>
    if j.status = .processing ∧ j.updated_at < stale_cutoff then
      { j with status := .pending,
               error_message := some "Reset: was stuck in processing for >15 min" }
    else j

/-- C6 counterexample: the sweep's threshold is 15 minutes, not 30.  A
`processing` job last updated 29 minutes ago (updated_at = 0, now = 1740 s)
is reset to `pending`, whereas the claim asserts a job 29 minutes stale is
left untouched. -/
theorem stale_sweep_resets_29_minute_job :
    (stale_sweep [{ id := 1, status := .processing, updated_at := 0 }]
      (29 * 60)).map Job.status = [JobStatus.pending] := by
  rfl

/-- C6 (amended): before claiming new work the poller resets every
`processing` job whose `updated_at` is older than a 15-minute staleness
threshold back to `pending`, recording the explanatory message
"Reset: was stuck in processing for >15 min", and leaves every other job
(not `processing`, or updated within the last 15 minutes) untouched.  In
particular both a 31-minute-stale and a 29-minute-stale job are reset,
while a 14-minute-stale job is not. -/
theorem stale_sweep_spec (store : List Job) (now : Int) (j : Job)
    (hj : j ∈ store) :
    (j.status = .processing → j.updated_at < now - 15 * 60 →
      { j with status := .pending,
               error_message :=
                 some "Reset: was stuck in processing for >15 min" } ∈
        stale_sweep store now) ∧
    (¬ (j.status = .processing ∧ j.updated_at < now - 15 * 60) →
      j ∈ stale_sweep store now) := by
  constructor
  · intro h1 h2
    exact List.mem_map.mpr ⟨j, hj, by rw [if_pos ⟨h1, h2⟩]⟩
  · intro h
    exact List.mem_map.mpr ⟨j, hj, by rw [if_neg h]⟩

/-- Concrete instances of the amended C6: with `now = 3600`, a processing
job updated at 1740 (31 min stale) is reset, and one updated at 2760
(14 min stale) is untouched. -/
theorem stale_sweep_spec_witness :
    ({ id := 1, status := .pending,
       error_message := some "Reset: was stuck in processing for >15 min",
       updated_at := 1740 } : Job) ∈
      stale_sweep [{ id := 1, status := .processing, updated_at := 1740 },
        { id := 2, status := .processing, updated_at := 2760 }] 3600 ∧
    ({ id := 2, status := .processing, updated_at := 2760 } : Job) ∈
      stale_sweep [{ id := 1, status := .processing, updated_at := 1740 },
        { id := 2, status := .processing, updated_at := 2760 }] 3600 := by
  constructor
  · exact (stale_sweep_spec _ 3600 ⟨1, .processing, none, none, 1740⟩
      (by simp)).1 rfl (by norm_num)
  · exact (stale_sweep_spec _ 3600 ⟨2, .processing, none, none, 2760⟩
      (by simp)).2 (by norm_num)

/-! ### Retry policy

Embedding of `retry_with_backoff` (video_analyzer.py lines 158-204).  The
decorator wraps a zero-argument call; we model the call as a function from
the attempt index to its outcome (`Except String α`: an exception carries
its message string `str(e)`), and the wrapper as a fold over the attempt
list `range(max_retries)` that also records the sequence of sleeps. -/

/-- `needle` occurs as a contiguous substring of `hay` (Python's
`needle in hay` on strings), over character lists. -/
def charListHasSub (needle : List Char) : List Char → Bool
  | [] => needle.isEmpty
  | c :: rest => needle.isPrefixOf (c :: rest) || charListHasSub needle rest

/-- Python's `needle in hay` for strings. -/
def strHasSub (hay needle : String) : Bool :=
  charListHasSub needle.toList hay.toList

/-- The retryable-error classifier of lines 182-190:

    '503' in error_str or '500' in error_str or 'INTERNAL' in error_str
    or 'overloaded' in error_str.lower() or 'rate limit' in ...lower()
    or 'quota' in ...lower() or 'internal error' in ...lower()
-/
def is_retryable (error_str : String) : Bool :=
  strHasSub error_str "503" ||
  strHasSub error_str "500" ||
  strHasSub error_str "INTERNAL" ||
  strHasSub error_str.toLower "overloaded" ||
  strHasSub error_str.toLower "rate limit" ||
  strHasSub error_str.toLower "quota" ||
  strHasSub error_str.toLower "internal error"

/-- The `for attempt in range(max_retries)` loop body of lines 172-201,
over the remaining attempt indices.  Returns the wrapper's outcome
(`none` models Python's implicit `return None` when the loop is exhausted,
which is unreachable for `max_retries ≥ 1`) paired with the list of sleep
durations (`time.sleep(delay)` at line 196, `delay = base_delay *
2 ** attempt`). -/
def retry_attempts (call : Nat → Except String α) (max_retries base_delay : Nat) :
    List Nat → Option (Except String α) × List Nat
  | [] => (none, [])
  | attempt :: rest =>
    match call attempt with
    | .ok v => (some (.ok v), [])
    | .error e =>
      if is_retryable e = true ∧ attempt < max_retries - 1 then
        let p := retry_attempts call max_retries base_delay rest
        (p.1, base_delay * 2 ^ attempt :: p.2)
      else (some (.error e), [])

/-- `retry_with_backoff(max_retries, base_delay)` applied to a call: run
the attempt loop over `range(max_retries)`. -/
def retry_with_backoff (call : Nat → Except String α)
    (max_retries base_delay : Nat) : Option (Except String α) × List Nat :=
  retry_attempts call max_retries base_delay (List.range max_retries)

/-- C7: under the default policy (4 attempts, base delay 3 s), if the first
`i` attempts all raise retryable errors, then: a success at attempt `i` is
returned unchanged after sleeps `3·2^0, …, 3·2^(i-1)` (the schedule
3 s, 6 s, 12 s); an error at attempt `i` that is non-retryable, or occurs
on the final attempt (`i = 3`), is propagated immediately with no further
sleep. -/
theorem retry_with_backoff_spec {α : Type} (call : Nat → Except String α)
    (i : Nat) (hi : i < 4)
    (hprev : ∀ j, j < i → ∃ e, call j = Except.error e ∧ is_retryable e = true) :
    (∀ v, call i = Except.ok v →
      retry_with_backoff call 4 3 =
        (some (Except.ok v), (List.range i).map fun j => 3 * 2 ^ j)) ∧
    (∀ e, call i = Except.error e → (is_retryable e = false ∨ i = 3) →
      retry_with_backoff call 4 3 =
        (some (Except.error e), (List.range i).map fun j => 3 * 2 ^ j)) := by
  have hrange : List.range 4 = [0, 1, 2, 3] := by decide
  interval_cases i
  · constructor
    · intro v hv
      simp [retry_with_backoff, hrange, retry_attempts, hv]
    · intro e he hne
      have hne' : is_retryable e = false := by
        rcases hne with h | h
        · exact h
        · omega
      simp [retry_with_backoff, hrange, retry_attempts, he, hne']
  · obtain ⟨e0, he0, hr0⟩ := hprev 0 (by omega)
    constructor
    · intro v hv
      simp [retry_with_backoff, hrange, retry_attempts, he0, hr0, hv]
      decide
    · intro e he hne
      have hne' : is_retryable e = false := by
        rcases hne with h | h
        · exact h
        · omega
      simp [retry_with_backoff, hrange, retry_attempts, he0, hr0, he, hne']
      decide
  · obtain ⟨e0, he0, hr0⟩ := hprev 0 (by omega)
    obtain ⟨e1, he1, hr1⟩ := hprev 1 (by omega)
    constructor
    · intro v hv
      simp [retry_with_backoff, hrange, retry_attempts, he0, hr0, he1, hr1, hv]
      decide
    · intro e he hne
      have hne' : is_retryable e = false := by
        rcases hne with h | h
        · exact h
        · omega
      simp [retry_with_backoff, hrange, retry_attempts, he0, hr0, he1, hr1,
        he, hne']
      decide
  · obtain ⟨e0, he0, hr0⟩ := hprev 0 (by omega)
    obtain ⟨e1, he1, hr1⟩ := hprev 1 (by omega)
    obtain ⟨e2, he2, hr2⟩ := hprev 2 (by omega)
    constructor
    · intro v hv
      simp [retry_with_backoff, hrange, retry_attempts, he0, hr0, he1, hr1,
        he2, hr2, hv]
      decide
    · intro e he _
      simp [retry_with_backoff, hrange, retry_attempts, he0, hr0, he1, hr1,
        he2, hr2, he]
      decide

/-- Concrete instance of C7: a call that fails with a retryable
"503 ... overloaded" error twice and then succeeds returns the success
after sleeping 3 s and 6 s. -/
theorem retry_with_backoff_spec_witness :
    retry_with_backoff
      (fun j => if j < 2 then Except.error "503 The model is overloaded"
                else Except.ok 42) 4 3 =
      (some (Except.ok 42), [3, 6]) := by
  have h := (retry_with_backoff_spec
    (fun j => if j < 2 then Except.error "503 The model is overloaded"
              else Except.ok (42 : Nat)) 2 (by norm_num)
    (fun j hj => ⟨"503 The model is overloaded", by
      simp [hj], by decide⟩)).1 42 (by norm_num)
  simpa using h

/-! ### Timestamp extraction

Embedding of the nested helper `extract_timestamp` of `merge_chunk_results`
(video_analyzer.py lines 467-475): `re.search(r'at (\d+):(\d+)', text)`
finds the leftmost occurrence of the literal `at ` followed by a maximal
digit run, a colon and another digit run, and returns
`minutes * 60 + seconds`; absent a match the function returns 0. -/

/-- Numeric value of a digit run (`int(...)` on the matched group). -/
def digitsToNat (ds : List Char) : Nat :=
  ds.foldl (fun a c => a * 10 + (c.toNat - 48)) 0

/-- Try to match the regex `at (\d+):(\d+)` anchored at the head of the
character list; returns `minutes * 60 + seconds` on a match. -/
def matchTimestampHere : List Char → Option Nat
  | 'a' :: 't' :: ' ' :: rest =>
    let ds1 := rest.takeWhile Char.isDigit
    if ds1.isEmpty then none
    else
      match rest.dropWhile Char.isDigit with
      | ':' :: rest2 =>
        let ds2 := rest2.takeWhile Char.isDigit
        if ds2.isEmpty then none
        else some (digitsToNat ds1 * 60 + digitsToNat ds2)
      | _ => none
  | _ => none

/-- Leftmost match of `at (\d+):(\d+)` (as `re.search` finds it). -/
def searchTimestamp : List Char → Option Nat
  | [] => none
  | c :: rest =>
    match matchTimestampHere (c :: rest) with
    | some t => some t
    | none => searchTimestamp rest

/-- `extract_timestamp(text)` of lines 467-475. -/
def extract_timestamp (text : String) : Nat :=
  (searchTimestamp text.toList).getD 0

/-! ### Chunk results and the merger

Embedding of `merge_chunk_results` (video_analyzer.py lines 429-502).
A chunk result is a parsed JSON object; the merger reads every field with
`dict.get(key, default)`, so each field is modelled as an `Option` (absent
key = `none`) and every access as `Option.getD`.  Scores are `Nat`: the
response schema (lines 321-354) constrains them to integers in `[0, 100]`.

Python's `sorted(l, key=f)` is a stable ascending sort; it is modelled by
`List.insertionSort` with the relation `f a ≤ f b`, which is stable and
produces the identical list.  Python's `int(sum(..)/len(..))` truncates the
float average toward zero, which on these non-negative integers (score sums
far below 2^53, where float division is exact enough to not cross an
integer) equals `Nat` floor division.  `list(set(..))` returns the union
with an unspecified order; it is modelled as first-occurrence
deduplication of the concatenation, which represents the same set. -/

/-- One element of a chunk's `key_moments` array (schema lines 335-349);
the merger only reads `m.get('timestamp_seconds', 0)`. -/
structure KeyMoment where
  timestamp_seconds : Option Nat := none
  timestamp_display : Option String := none
  type : Option String := none
  description : Option String := none
  severity : Option String := none
deriving DecidableEq, Repr

/-- One chunk's analysis result (a parsed JSON object). -/
structure ChunkResult where
  safety_score : Option Nat := none
  violence_score : Option Nat := none
  nsfw_score : Option Nat := none
  scary_score : Option Nat := none
  profanity_detected : Option Bool := none
  themes : Option (List String) := none
  concerns : Option (List String) := none
  positive_aspects : Option (List String) := none
  summary : Option String := none
  explanation : Option String := none
  recommendations : Option String := none
  key_moments : Option (List KeyMoment) := none
deriving DecidableEq, Repr

/-- The merged report returned by `merge_chunk_results` (every key the
function writes is always present, so the fields are not optional). -/
@[ext]
structure MergedResult where
  safety_score : Nat
  violence_score : Nat
  nsfw_score : Nat
  scary_score : Nat
  profanity_detected : Bool
  themes : List String
  concerns : List String
  positive_aspects : List String
  summary : String
  explanation : String
  recommendations : String
  key_moments : List KeyMoment
deriving DecidableEq, Repr

/-- `set.update`-then-`list` modelled as first-occurrence dedup. -/
def insertUnique (acc : List String) (x : String) : List String :=
  if x ∈ acc then acc else acc ++ [x]

def dedupKeepFirst (l : List String) : List String :=
  l.foldl insertUnique []

/-- `merge_chunk_results(chunk_results)`, lines 429-502.  The `[]` branch
is the `if not chunk_results:` early return of lines 431-445. -/
def merge_chunk_results : List ChunkResult → MergedResult
  | [] =>
    { safety_score := 50
      violence_score := 0
      nsfw_score := 0
      scary_score := 0
      profanity_detected := false
      themes := []
      concerns := []
      positive_aspects := []
      summary := "Analysis failed"
      explanation := "No chunks analyzed"
      recommendations := "Unable to provide recommendations"
      key_moments := [] }
  | first :: rest =>
    let chunk_results := first :: rest
    let avg_safety :=
      (chunk_results.map fun c => c.safety_score.getD 50).sum /
        chunk_results.length
    let max_violence :=
      (chunk_results.map fun c => c.violence_score.getD 0).foldl max 0
    let max_nsfw :=
      (chunk_results.map fun c => c.nsfw_score.getD 0).foldl max 0
    let max_scary :=
      (chunk_results.map fun c => c.scary_score.getD 0).foldl max 0
    let any_profanity :=
      chunk_results.any fun c => c.profanity_detected.getD false
    let all_themes :=
      dedupKeepFirst (chunk_results.flatMap fun c => c.themes.getD [])
    let all_concerns := chunk_results.flatMap fun c => c.concerns.getD []
    let all_positive :=
      chunk_results.flatMap fun c => c.positive_aspects.getD []
    let all_key_moments :=
      chunk_results.flatMap fun c => c.key_moments.getD []
    let sorted_concerns :=
      (List.insertionSort
        (fun a b => extract_timestamp a ≤ extract_timestamp b)
        all_concerns).take 10
    let sorted_positive :=
      (List.insertionSort
        (fun a b => extract_timestamp a ≤ extract_timestamp b)
        all_positive).take 10
    let sorted_key_moments :=
      (List.insertionSort
        (fun a b => a.timestamp_seconds.getD 0 ≤ b.timestamp_seconds.getD 0)
        all_key_moments).take 10
    let summary0 := first.summary.getD "Video analyzed in multiple parts"
    let summary :=
      if strHasSub summary0 "Video content analyzed" || summary0.length < 10
      then "Long video analyzed in " ++ toString chunk_results.length ++
        " parts - see concerns and positive aspects with timestamps below"
      else summary0
    { safety_score := avg_safety
      violence_score := max_violence
      nsfw_score := max_nsfw
      scary_score := max_scary
      profanity_detected := any_profanity
      themes := all_themes
      concerns := sorted_concerns
      positive_aspects := sorted_positive
      summary := summary
      explanation := "Max violence: " ++ toString max_violence ++
        ", NSFW: " ++ toString max_nsfw ++ ", Scary: " ++ toString max_scary
      recommendations := "Review all concerns carefully for long videos"
      key_moments := sorted_key_moments }

/-! Helper lemmas about the list combinators the merger uses. -/

theorem foldl_max_init_le (l : List Nat) (a : Nat) : a ≤ l.foldl max a := by
  induction l generalizing a with
  | nil => exact le_rfl
  | cons y ys ih => exact le_trans (le_max_left a y) (ih (max a y))

theorem le_foldl_max {l : List Nat} {x : Nat} (a : Nat) (hx : x ∈ l) :
    x ≤ l.foldl max a := by
  induction l generalizing a with
  | nil => cases hx
  | cons y ys ih =>
    rcases List.mem_cons.mp hx with rfl | h
    · exact le_trans (le_max_right a x) (foldl_max_init_le ys (max a x))
    · exact ih (max a y) h

theorem foldl_max_eq_or_mem (l : List Nat) (a : Nat) :
    l.foldl max a = a ∨ l.foldl max a ∈ l := by
  induction l generalizing a with
  | nil => exact Or.inl rfl
  | cons y ys ih =>
    rcases ih (max a y) with h | h
    · rcases max_choice a y with h2 | h2
      · exact Or.inl (by rw [List.foldl_cons, h, h2])
      · exact Or.inr (by rw [List.foldl_cons, h, h2]; exact List.mem_cons_self y ys)
    · exact Or.inr (List.mem_cons_of_mem _ h)

theorem mem_insertUnique (acc : List String) (x y : String) :
    y ∈ insertUnique acc x ↔ y ∈ acc ∨ y = x := by
  unfold insertUnique
  split_ifs with h
  · exact ⟨Or.inl, fun hy => hy.elim id fun hyx => hyx ▸ h⟩
  · simp

theorem mem_foldl_insertUnique (l : List String) (acc : List String) (y : String) :
    y ∈ l.foldl insertUnique acc ↔ y ∈ acc ∨ y ∈ l := by
  induction l generalizing acc with
  | nil => simp
  | cons x xs ih =>
    rw [List.foldl_cons, ih, mem_insertUnique, List.mem_cons]
    tauto

theorem mem_dedupKeepFirst (l : List String) (y : String) :
    y ∈ dedupKeepFirst l ↔ y ∈ l := by
  simp [dedupKeepFirst, mem_foldl_insertUnique]

theorem sorted_take_sortByKey {α : Type} (key : α → Nat) (l : List α) (n : Nat) :
    List.Sorted (fun a b => key a ≤ key b)
      ((List.insertionSort (fun a b => key a ≤ key b) l).take n) := by
  haveI : IsTotal α fun a b => key a ≤ key b := ⟨fun a b => Nat.le_total _ _⟩
  haveI : IsTrans α fun a b => key a ≤ key b :=
    ⟨fun a b c hab hbc => le_trans hab hbc⟩
  exact List.Pairwise.sublist (List.take_sublist n _)
    (List.sorted_insertionSort _ l)

theorem mem_of_mem_take_sortByKey {α : Type} (key : α → Nat) {l : List α}
    {n : Nat} {x : α}
    (h : x ∈ (List.insertionSort (fun a b => key a ≤ key b) l).take n) :
    x ∈ l :=
  (List.mem_insertionSort _).mp (List.mem_of_mem_take h)

/-- C8: `merge_chunk_results` is total on the empty list: `[]` yields the
fixed failure-shaped result with `safety_score = 50`, all content scores 0,
`profanity_detected = False`, empty collections, and the explanatory
summary/explanation/recommendations strings — no exception path exists. -/
theorem merge_chunk_results_empty_total :
    merge_chunk_results [] =
      { safety_score := 50
        violence_score := 0
        nsfw_score := 0
        scary_score := 0
        profanity_detected := false
        themes := []
        concerns := []
        positive_aspects := []
        summary := "Analysis failed"
        explanation := "No chunks analyzed"
        recommendations := "Unable to provide recommendations"
        key_moments := [] } := rfl

/-- C3 counterexample: `merge_chunk_results` performs no cleaning of the
concatenated concerns — no minimum-length drop, no timestamp-pattern drop,
no deduplication.  On the claim's example input the merged `concerns` list
is the full stably-sorted 4-element list ("Short" extracts timestamp 0 and
sorts first), not the cleaned singleton `["Bad thing at 1:05"]`. -/
theorem merge_concerns_not_cleaned :
    (merge_chunk_results [{ concerns := some ["Bad thing at 1:05",
        "x at 1:05", "Bad thing at 1:05", "Short"] }]).concerns =
      ["Short", "Bad thing at 1:05", "x at 1:05", "Bad thing at 1:05"] ∧
    (["Short", "Bad thing at 1:05", "x at 1:05", "Bad thing at 1:05"] :
        List String) ≠ ["Bad thing at 1:05"] := by
  exact ⟨by decide, by decide⟩

/-- C3 (amended): the merged `concerns` and `positive_aspects` are each the
concatenation across segments, stably sorted ascending by the timestamp
extracted from the text pattern `at M(M):SS` (defaulting to 0 when absent),
and capped at 10 items; no length filter, no pattern filter and no
deduplication is applied, so the example input
`["Bad thing at 1:05", "x at 1:05", "Bad thing at 1:05", "Short"]` yields
`["Short", "Bad thing at 1:05", "x at 1:05", "Bad thing at 1:05"]`. -/
theorem merge_concerns_spec :
    (∀ cs : List ChunkResult,
      List.Sorted (fun a b => extract_timestamp a ≤ extract_timestamp b)
        (merge_chunk_results cs).concerns ∧
      (merge_chunk_results cs).concerns.length ≤ 10 ∧
      (∀ x ∈ (merge_chunk_results cs).concerns,
        ∃ c ∈ cs, x ∈ c.concerns.getD []) ∧
      List.Sorted (fun a b => extract_timestamp a ≤ extract_timestamp b)
        (merge_chunk_results cs).positive_aspects ∧
      (merge_chunk_results cs).positive_aspects.length ≤ 10 ∧
      (∀ x ∈ (merge_chunk_results cs).positive_aspects,
        ∃ c ∈ cs, x ∈ c.positive_aspects.getD [])) ∧
    (merge_chunk_results [{ concerns := some ["Bad thing at 1:05",
        "x at 1:05", "Bad thing at 1:05", "Short"] }]).concerns =
      ["Short", "Bad thing at 1:05", "x at 1:05", "Bad thing at 1:05"] := by
  constructor
  · intro cs
    cases cs with
    | nil =>
      refine ⟨?_, ?_, ?_, ?_, ?_, ?_⟩ <;> simp [merge_chunk_results]
    | cons c0 rest =>
      have hc : (merge_chunk_results (c0 :: rest)).concerns =
          (List.insertionSort
            (fun a b => extract_timestamp a ≤ extract_timestamp b)
            ((c0 :: rest).flatMap fun c => c.concerns.getD [])).take 10 := rfl
      have hp : (merge_chunk_results (c0 :: rest)).positive_aspects =
          (List.insertionSort
            (fun a b => extract_timestamp a ≤ extract_timestamp b)
            ((c0 :: rest).flatMap fun c =>
              c.positive_aspects.getD [])).take 10 := rfl
      refine ⟨?_, ?_, ?_, ?_, ?_, ?_⟩
      · rw [hc]; exact sorted_take_sortByKey extract_timestamp _ 10
      · rw [hc, List.length_take]; exact inf_le_left
      · intro x hx
        rw [hc] at hx
        exact List.mem_flatMap.mp (mem_of_mem_take_sortByKey extract_timestamp hx)
      · rw [hp]; exact sorted_take_sortByKey extract_timestamp _ 10
      · rw [hp, List.length_take]; exact inf_le_left
      · intro x hx
        rw [hp] at hx
        exact List.mem_flatMap.mp (mem_of_mem_take_sortByKey extract_timestamp hx)
  · decide

/-- Concrete instance of the amended C3: "Short" (an item surviving the
merge, which the claimed cleaning would drop) traces back to a segment's
concern list. -/
theorem merge_concerns_spec_witness :
    ∃ c ∈ [({ concerns := some ["Bad thing at 1:05", "x at 1:05",
        "Bad thing at 1:05", "Short"] } : ChunkResult)],
      "Short" ∈ c.concerns.getD [] :=
  (merge_concerns_spec.1 [{ concerns := some ["Bad thing at 1:05",
    "x at 1:05", "Bad thing at 1:05", "Short"] }]).2.2.1 "Short" (by decide)

/-- C4: on a non-empty chunk list the merged `safety_score` is the integer
average (floor, which on these non-negative integers equals truncation
toward zero) of the per-chunk safety scores, `violence_score`,
`nsfw_score` and `scary_score` are the maxima across chunks (stated as: an
upper bound that is attained), `profanity_detected` is the logical OR, and
`themes` is the set union across chunks. -/
theorem merge_scores_spec (c0 : ChunkResult) (rest : List ChunkResult) :
    ((merge_chunk_results (c0 :: rest)).safety_score * (c0 :: rest).length ≤
        ((c0 :: rest).map fun c => c.safety_score.getD 50).sum ∧
      ((c0 :: rest).map fun c => c.safety_score.getD 50).sum <
        ((merge_chunk_results (c0 :: rest)).safety_score + 1) *
          (c0 :: rest).length) ∧
    ((∀ c ∈ c0 :: rest, c.violence_score.getD 0 ≤
        (merge_chunk_results (c0 :: rest)).violence_score) ∧
      ∃ c ∈ c0 :: rest, (merge_chunk_results (c0 :: rest)).violence_score =
        c.violence_score.getD 0) ∧
    ((∀ c ∈ c0 :: rest, c.nsfw_score.getD 0 ≤
        (merge_chunk_results (c0 :: rest)).nsfw_score) ∧
      ∃ c ∈ c0 :: rest, (merge_chunk_results (c0 :: rest)).nsfw_score =
        c.nsfw_score.getD 0) ∧
    ((∀ c ∈ c0 :: rest, c.scary_score.getD 0 ≤
        (merge_chunk_results (c0 :: rest)).scary_score) ∧
      ∃ c ∈ c0 :: rest, (merge_chunk_results (c0 :: rest)).scary_score =
        c.scary_score.getD 0) ∧
    ((merge_chunk_results (c0 :: rest)).profanity_detected = true ↔
      ∃ c ∈ c0 :: rest, c.profanity_detected.getD false = true) ∧
    (∀ t : String, t ∈ (merge_chunk_results (c0 :: rest)).themes ↔
      ∃ c ∈ c0 :: rest, t ∈ c.themes.getD []) := by
  have hn : 0 < (c0 :: rest).length := by simp
  have hsafety : (merge_chunk_results (c0 :: rest)).safety_score =
      ((c0 :: rest).map fun c => c.safety_score.getD 50).sum /
        (c0 :: rest).length := rfl
  have hviol : (merge_chunk_results (c0 :: rest)).violence_score =
      ((c0 :: rest).map fun c => c.violence_score.getD 0).foldl max 0 := rfl
  have hnsfw : (merge_chunk_results (c0 :: rest)).nsfw_score =
      ((c0 :: rest).map fun c => c.nsfw_score.getD 0).foldl max 0 := rfl
  have hscary : (merge_chunk_results (c0 :: rest)).scary_score =
      ((c0 :: rest).map fun c => c.scary_score.getD 0).foldl max 0 := rfl
  have hprof : (merge_chunk_results (c0 :: rest)).profanity_detected =
      (c0 :: rest).any fun c => c.profanity_detected.getD false := rfl
  have hthemes : (merge_chunk_results (c0 :: rest)).themes =
      dedupKeepFirst ((c0 :: rest).flatMap fun c => c.themes.getD []) := rfl
  have maxSpec : ∀ f : ChunkResult → Nat,
      (∀ c ∈ c0 :: rest, f c ≤ ((c0 :: rest).map f).foldl max 0) ∧
      ∃ c ∈ c0 :: rest, ((c0 :: rest).map f).foldl max 0 = f c := by
    intro f
    constructor
    · intro c hc
      exact le_foldl_max 0 (List.mem_map_of_mem f hc)
    · rcases foldl_max_eq_or_mem ((c0 :: rest).map f) 0 with h | h
      · refine ⟨c0, List.mem_cons_self c0 rest, ?_⟩
        have h0 : f c0 ≤ ((c0 :: rest).map f).foldl max 0 :=
          le_foldl_max 0 (List.mem_map_of_mem f (List.mem_cons_self c0 rest))
        omega
      · rcases List.mem_map.mp h with ⟨c, hc, hfc⟩
        exact ⟨c, hc, hfc.symm⟩
  refine ⟨⟨?_, ?_⟩, ?_, ?_, ?_, ?_, ?_⟩
  · rw [hsafety]
    exact Nat.div_mul_le_self _ _
  · rw [hsafety]
    have hdm := Nat.div_add_mod
      (((c0 :: rest).map fun c => c.safety_score.getD 50).sum)
      ((c0 :: rest).length)
    have hmod := Nat.mod_lt
      (((c0 :: rest).map fun c => c.safety_score.getD 50).sum) hn
    calc ((c0 :: rest).map fun c => c.safety_score.getD 50).sum
        = (c0 :: rest).length *
            (((c0 :: rest).map fun c => c.safety_score.getD 50).sum /
              (c0 :: rest).length) +
            ((c0 :: rest).map fun c => c.safety_score.getD 50).sum %
              (c0 :: rest).length := hdm.symm
      _ < (c0 :: rest).length *
            (((c0 :: rest).map fun c => c.safety_score.getD 50).sum /
              (c0 :: rest).length) + (c0 :: rest).length :=
          Nat.add_lt_add_left hmod _
      _ = (((c0 :: rest).map fun c => c.safety_score.getD 50).sum /
              (c0 :: rest).length + 1) * (c0 :: rest).length := by ring
  · rw [hviol]; exact maxSpec fun c => c.violence_score.getD 0
  · rw [hnsfw]; exact maxSpec fun c => c.nsfw_score.getD 0
  · rw [hscary]; exact maxSpec fun c => c.scary_score.getD 0
  · rw [hprof]; exact List.any_eq_true
  · intro t
    rw [hthemes, mem_dedupKeepFirst, List.mem_flatMap]

/-- Concrete instance of C4 (the spec's own examples): violence scores
`[10, 90, 5]` merge to 90, safety scores `[80, 60, 90]` merge to 76, and
the first chunk's violence score is bounded by the merged maximum. -/
theorem merge_scores_spec_witness :
    (merge_chunk_results [{ safety_score := some 80, violence_score := some 10 },
      { safety_score := some 60, violence_score := some 90 },
      { safety_score := some 90, violence_score := some 5 }]).violence_score
        = 90 ∧
    (merge_chunk_results [{ safety_score := some 80, violence_score := some 10 },
      { safety_score := some 60, violence_score := some 90 },
      { safety_score := some 90, violence_score := some 5 }]).safety_score
        = 76 ∧
    ({ safety_score := some 80, violence_score := some 10 } :
        ChunkResult).violence_score.getD 0 ≤
      (merge_chunk_results [{ safety_score := some 80, violence_score := some 10 },
        { safety_score := some 60, violence_score := some 90 },
        { safety_score := some 90, violence_score := some 5 }]).violence_score :=
  ⟨by decide, by decide,
    (merge_scores_spec { safety_score := some 80, violence_score := some 10 }
      [{ safety_score := some 60, violence_score := some 90 },
       { safety_score := some 90, violence_score := some 5 }]).2.1.1
      { safety_score := some 80, violence_score := some 10 } (by simp)⟩

/-- The merger reads each chunk only through `dict.get` projections, so
replacing one chunk by any chunk with identical projections leaves the
merged result unchanged. -/
theorem merge_chunk_results_congr (c c' : ChunkResult)
    (h1 : c.safety_score.getD 50 = c'.safety_score.getD 50)
    (h2 : c.violence_score.getD 0 = c'.violence_score.getD 0)
    (h3 : c.nsfw_score.getD 0 = c'.nsfw_score.getD 0)
    (h4 : c.scary_score.getD 0 = c'.scary_score.getD 0)
    (h5 : c.profanity_detected.getD false = c'.profanity_detected.getD false)
    (h6 : c.themes.getD [] = c'.themes.getD [])
    (h7 : c.concerns.getD [] = c'.concerns.getD [])
    (h8 : c.positive_aspects.getD [] = c'.positive_aspects.getD [])
    (h9 : c.key_moments.getD [] = c'.key_moments.getD [])
    (h10 : c.summary.getD "Video analyzed in multiple parts" =
      c'.summary.getD "Video analyzed in multiple parts")
    (pre post : List ChunkResult) :
    merge_chunk_results (pre ++ c :: post) =
      merge_chunk_results (pre ++ c' :: post) := by
  cases pre with
  | nil =>
    simp only [List.nil_append]
    ext : 1 <;>
      simp [merge_chunk_results, h1, h2, h3, h4, h5, h6, h7, h8, h9, h10]
  | cons p ps =>
    simp only [List.cons_append]
    ext : 1 <;>
      simp [merge_chunk_results, List.map_append, List.flatMap_append,
        List.any_append, h1, h2, h3, h4, h5, h6, h7, h8, h9, h10]

/-- C10: the merger is total on chunks with omitted fields, because every
field is read through `dict.get` with a default: a chunk missing
`safety_score` contributes exactly like one carrying 50, missing
`violence_score`/`nsfw_score`/`scary_score` like 0, missing
`profanity_detected` like `False`, and missing
`themes`/`concerns`/`positive_aspects`/`key_moments` like empty lists —
each stated as equality of the entire merged result whatever the
surrounding chunks. -/
theorem merge_chunk_results_missing_field_defaults
    (pre post : List ChunkResult) (c : ChunkResult) :
    (merge_chunk_results (pre ++ { c with safety_score := none } :: post) =
      merge_chunk_results (pre ++ { c with safety_score := some 50 } :: post)) ∧
    (merge_chunk_results (pre ++ { c with violence_score := none } :: post) =
      merge_chunk_results (pre ++ { c with violence_score := some 0 } :: post)) ∧
    (merge_chunk_results (pre ++ { c with nsfw_score := none } :: post) =
      merge_chunk_results (pre ++ { c with nsfw_score := some 0 } :: post)) ∧
    (merge_chunk_results (pre ++ { c with scary_score := none } :: post) =
      merge_chunk_results (pre ++ { c with scary_score := some 0 } :: post)) ∧
    (merge_chunk_results (pre ++ { c with profanity_detected := none } :: post) =
      merge_chunk_results
        (pre ++ { c with profanity_detected := some false } :: post)) ∧
    (merge_chunk_results (pre ++ { c with themes := none } :: post) =
      merge_chunk_results (pre ++ { c with themes := some [] } :: post)) ∧
    (merge_chunk_results (pre ++ { c with concerns := none } :: post) =
      merge_chunk_results (pre ++ { c with concerns := some [] } :: post)) ∧
    (merge_chunk_results (pre ++ { c with positive_aspects := none } :: post) =
      merge_chunk_results
        (pre ++ { c with positive_aspects := some [] } :: post)) ∧
    (merge_chunk_results (pre ++ { c with key_moments := none } :: post) =
      merge_chunk_results (pre ++ { c with key_moments := some [] } :: post)) := by
  refine ⟨?_, ?_, ?_, ?_, ?_, ?_, ?_, ?_, ?_⟩
  · exact merge_chunk_results_congr { c with safety_score := none }
      { c with safety_score := some 50 } rfl rfl rfl rfl rfl rfl rfl rfl rfl rfl
      pre post
  · exact merge_chunk_results_congr { c with violence_score := none }
      { c with violence_score := some 0 } rfl rfl rfl rfl rfl rfl rfl rfl rfl rfl
      pre post
  · exact merge_chunk_results_congr { c with nsfw_score := none }
      { c with nsfw_score := some 0 } rfl rfl rfl rfl rfl rfl rfl rfl rfl rfl
      pre post
  · exact merge_chunk_results_congr { c with scary_score := none }
      { c with scary_score := some 0 } rfl rfl rfl rfl rfl rfl rfl rfl rfl rfl
      pre post
  · exact merge_chunk_results_congr { c with profanity_detected := none }
      { c with profanity_detected := some false } rfl rfl rfl rfl rfl rfl rfl
      rfl rfl rfl pre post
  · exact merge_chunk_results_congr { c with themes := none }
      { c with themes := some [] } rfl rfl rfl rfl rfl rfl rfl rfl rfl rfl
      pre post
  · exact merge_chunk_results_congr { c with concerns := none }
      { c with concerns := some [] } rfl rfl rfl rfl rfl rfl rfl rfl rfl rfl
      pre post
  · exact merge_chunk_results_congr { c with positive_aspects := none }
      { c with positive_aspects := some [] } rfl rfl rfl rfl rfl rfl rfl rfl
      rfl rfl pre post
  · exact merge_chunk_results_congr { c with key_moments := none }
      { c with key_moments := some [] } rfl rfl rfl rfl rfl rfl rfl rfl rfl rfl
      pre post

/-! ### Response normalization

Embedding of the response-parsing cascade of `analyze_video`
(video_analyzer.py lines 709-794):

1. `json.loads(response.text)` — strict JSON parse (modelled by
   `json_loads` below, a recursive-descent parser for the JSON subset the
   response schema produces: objects, arrays, strings with simple escapes,
   integers, booleans, null; like `json.loads` it rejects trailing
   garbage).
2. on `JSONDecodeError`: `json_repair.repair_json` — a third-party library
   outside this repository, modelled as an opaque oracle
   `String → Option Json`; its result is accepted only when it is a dict
   containing the key `'safety_score'` (lines 737-743).
3. on failure: regex extraction of the individual fields
   (lines 717-731 and 748-780), modelled character-faithfully below.
4. on failure: the fixed fallback result of lines 783-794.

Every failure is caught by an enclosing `except`, so the cascade is a
total function of the response text (and the repair oracle). -/

inductive Json where
  | null : Json
  | bool (b : Bool) : Json
  | num (n : Int) : Json
  | str (s : String) : Json
  | arr (elems : List Json) : Json
  | obj (fields : List (String × Json)) : Json
deriving Repr

/-- JSON whitespace (also Python's `\s` for the characters that occur in
model responses). -/
def isSpaceChar (c : Char) : Bool :=
  c = ' ' || c = '\n' || c = '\t' || c = '\r'

def skipWs : List Char → List Char
  | [] => []
  | c :: rest => if isSpaceChar c then skipWs rest else c :: rest

/-- Body of a JSON string after the opening quote, decoding the simple
escapes; returns the decoded characters and the input after the closing
quote. -/
def parseStringBody : Nat → List Char → Option (List Char × List Char)
  | 0, _ => none
  | _, [] => none
  | fuel + 1, c :: rest =>
    if c = '"' then some ([], rest)
    else if c = '\\' then
      match rest with
      | [] => none
      | e :: rest2 =>
        let d : Option Char :=
          if e = '"' then some '"' else if e = '\\' then some '\\'
          else if e = '/' then some '/' else if e = 'n' then some '\n'
          else if e = 't' then some '\t' else if e = 'r' then some '\r'
          else none
        match d with
        | none => none
        | some dc =>
          match parseStringBody fuel rest2 with
          | some (cs, r) => some (dc :: cs, r)
          | none => none
    else
      match parseStringBody fuel rest with
      | some (cs, r) => some (c :: cs, r)
      | none => none

/-- A maximal digit run as a number (fails on an empty run). -/
def parseNatPart (s : List Char) : Option (Nat × List Char) :=
  let ds := s.takeWhile Char.isDigit
  if ds.isEmpty then none
  else some (digitsToNat ds, s.dropWhile Char.isDigit)

mutual

/-- One JSON value (after optional leading whitespace). -/
def parseValue : Nat → List Char → Option (Json × List Char)
  | 0, _ => none
  | fuel + 1, s =>
    match skipWs s with
    | 't' :: 'r' :: 'u' :: 'e' :: rest => some (.bool true, rest)
    | 'f' :: 'a' :: 'l' :: 's' :: 'e' :: rest => some (.bool false, rest)
    | 'n' :: 'u' :: 'l' :: 'l' :: rest => some (.null, rest)
    | '"' :: rest =>
      match parseStringBody fuel rest with
      | some (cs, r) => some (.str (String.mk cs), r)
      | none => none
    | '[' :: rest =>
      match skipWs rest with
      | ']' :: r2 => some (.arr [], r2)
      | _ =>
        match parseElems fuel rest with
        | some (es, r) => some (.arr es, r)
        | none => none
    | '{' :: rest =>
      match skipWs rest with
      | '}' :: r2 => some (.obj [], r2)
      | _ =>
        match parseFields fuel rest with
        | some (fs, r) => some (.obj fs, r)
        | none => none
    | '-' :: rest =>
      match parseNatPart rest with
      | some (n, r) => some (.num (-(n : Int)), r)
      | none => none
    | c :: rest =>
      if c.isDigit then
        match parseNatPart (c :: rest) with
        | some (n, r) => some (.num (n : Int), r)
        | none => none
      else none
    | [] => none

/-- Comma-separated array elements up to the closing bracket. -/
def parseElems : Nat → List Char → Option (List Json × List Char)
  | 0, _ => none
  | fuel + 1, s =>
    match parseValue fuel s with
    | none => none
    | some (v, r) =>
      match skipWs r with
      | ',' :: r2 =>
        match parseElems fuel r2 with
        | some (vs, r3) => some (v :: vs, r3)
        | none => none
      | ']' :: r2 => some ([v], r2)
      | _ => none

/-- Comma-separated `"key": value` members up to the closing brace. -/
def parseFields : Nat → List Char → Option (List (String × Json) × List Char)
  | 0, _ => none
  | fuel + 1, s =>
    match skipWs s with
    | '"' :: rest =>
      match parseStringBody fuel rest with
      | none => none
      | some (k, r) =>
        match skipWs r with
        | ':' :: r2 =>
          match parseValue fuel r2 with
          | none => none
          | some (v, r3) =>
            match skipWs r3 with
            | ',' :: r4 =>
              match parseFields fuel r4 with
              | some (fs, r5) => some ((String.mk k, v) :: fs, r5)
              | none => none
            | '}' :: r4 => some ([(String.mk k, v)], r4)
            | _ => none
        | _ => none
    | _ => none

end

/-- `json.loads(text)`: a complete parse of one JSON document (`none`
models `JSONDecodeError`). -/
def json_loads (text : String) : Option Json :=
  match parseValue (text.length + 1) text.toList with
  | some (v, rest) => if (skipWs rest).isEmpty then some v else none
  | none => none

/-- Python's `'safety_score' in repaired` on a parsed value (only dicts
contain keys). -/
def jsonHasKey : Json → String → Bool
  | .obj fields, k => fields.any fun kv => kv.1 = k
  | _, _ => false

/-! The regex helpers of the level-2 fallback (lines 717-731, 748-758). -/

/-- Try `PAT\s*(\d+)` anchored here (`PAT` is the literal
`"key":`); models one candidate position of
`re.search(r'"key":\s*(\d+)', text)`. -/
def matchKeyIntHere (pat s : List Char) : Option Nat :=
  if pat.isPrefixOf s then
    parseNatPart ((s.drop pat.length).dropWhile isSpaceChar) |>.map Prod.fst
  else none

def searchKeyInt (pat : List Char) : List Char → Option Nat
  | [] => none
  | c :: rest =>
    match matchKeyIntHere pat (c :: rest) with
    | some n => some n
    | none => searchKeyInt pat rest

/-- `re.search(r'"KEY":\s*(\d+)', text)` with `int(...)` on the group
(lines 749-752). -/
def find_score (text key : String) : Option Nat :=
  searchKeyInt ('"' :: key.toList ++ ['"', ':']) text.toList

/-- `re.search(r'"profanity_detected":\s*(true|false)', text)` combined
with the `== 'true'` test of line 772. -/
def matchKeyBoolHere (pat s : List Char) : Option Bool :=
  if pat.isPrefixOf s then
    let r := (s.drop pat.length).dropWhile isSpaceChar
    if ("true".toList).isPrefixOf r then some true
    else if ("false".toList).isPrefixOf r then some false
    else none
  else none

def searchKeyBool (pat : List Char) : List Char → Option Bool
  | [] => none
  | c :: rest =>
    match matchKeyBoolHere pat (c :: rest) with
    | some b => some b
    | none => searchKeyBool pat rest

def find_profanity (text : String) : Option Bool :=
  searchKeyBool ("\"profanity_detected\":".toList) text.toList

/-- The raw (undecoded, as the regex group captures it) body of a quoted
string: characters up to the first unescaped quote.  Fuel-driven; callers
pass `length + 1`, which always suffices (each step consumes a
character). -/
def scanQuoted : Nat → List Char → Option (List Char × List Char)
  | 0, _ => none
  | _, [] => none
  | fuel + 1, c :: rest =>
    if c = '"' then some ([], rest)
    else if c = '\\' then
      match rest with
      | [] => none
      | e :: rest2 =>
        match scanQuoted fuel rest2 with
        | some (cs, r) => some ('\\' :: e :: cs, r)
        | none => none
    else
      match scanQuoted fuel rest with
      | some (cs, r) => some (c :: cs, r)
      | none => none

/-- `re.search(r'"summary":\s*"((?:[^"\x5c]|\x5c.)*)"', text)`
(line 754). -/
def matchKeyStrHere (pat s : List Char) : Option String :=
  if pat.isPrefixOf s then
    match (s.drop pat.length).dropWhile isSpaceChar with
    | '"' :: rest => (scanQuoted (rest.length + 1) rest).map fun p => String.mk p.1
    | _ => none
  else none

def searchKeyStr (pat : List Char) : List Char → Option String
  | [] => none
  | c :: rest =>
    match matchKeyStrHere pat (c :: rest) with
    | some s => some s
    | none => searchKeyStr pat rest

def find_summary (text : String) : Option String :=
  searchKeyStr ("\"summary\":".toList) text.toList

/-- The bracket-depth scan of `extract_string_array` (lines 724-730):
content up to the bracket matching the already-consumed `[`, or the whole
remainder when unbalanced. -/
def bracketScan : Nat → List Char → List Char
  | _, [] => []
  | depth, c :: rest =>
    if c = '[' then c :: bracketScan (depth + 1) rest
    else if c = ']' then
      if depth = 1 then [] else c :: bracketScan (depth - 1) rest
    else c :: bracketScan depth rest

/-- `re.findall(r'"((?:[^"\x5c]|\x5c.)*)"', array_text)`: every quoted
string (raw group content) in order.  Fuel-driven like `scanQuoted`. -/
def findAllQuoted : Nat → List Char → List String
  | 0, _ => []
  | _, [] => []
  | fuel + 1, c :: rest =>
    if c = '"' then
      match scanQuoted (rest.length + 1) rest with
      | some (cs, r) => String.mk cs :: findAllQuoted fuel r
      | none => []
    else findAllQuoted fuel rest

/-- `extract_string_array(text, key)` (lines 717-731): find
`"key"\s*:\s*[`, bracket-scan to the matching `]`, collect the quoted
strings inside. -/
def matchKeyArrHere (pat s : List Char) : Option (List Char) :=
  if pat.isPrefixOf s then
    match (s.drop pat.length).dropWhile isSpaceChar with
    | ':' :: r2 =>
      match r2.dropWhile isSpaceChar with
      | '[' :: r3 => some (bracketScan 1 r3)
      | _ => none
    | _ => none
  else none

def searchKeyArr (pat : List Char) : List Char → Option (List Char)
  | [] => none
  | c :: rest =>
    match matchKeyArrHere pat (c :: rest) with
    | some a => some a
    | none => searchKeyArr pat rest

def extract_string_array (text key : String) : List String :=
  match searchKeyArr ('"' :: key.toList ++ ['"']) text.toList with
  | some arrText => findAllQuoted (arrText.length + 1) arrText
  | none => []

/-- Level 2 of the cascade (lines 748-780): regex-extract every field;
succeeds only when all four scores are found (`if violence and nsfw and
scary and safety:`), otherwise the enclosing `except` falls through to the
fixed default. -/
def regex_extract_result (text : String) : Option Json :=
  let violence := find_score text "violence_score"
  let nsfw := find_score text "nsfw_score"
  let scary := find_score text "scary_score"
  let safety := find_score text "safety_score"
  let profanity := find_profanity text
  let summary_match := find_summary text
  let concerns0 := extract_string_array text "concerns"
  let positive_aspects := extract_string_array text "positive_aspects"
  let themes := extract_string_array text "themes"
  let concerns :=
    if concerns0.isEmpty
    then ["See safety scores above for content assessment"]
    else concerns0
  match violence, nsfw, scary, safety with
  | some v, some nf, some sc, some sf =>
    some (.obj [("safety_score", .num (sf : Int)),
      ("violence_score", .num (v : Int)),
      ("nsfw_score", .num (nf : Int)),
      ("scary_score", .num (sc : Int)),
      ("profanity_detected", .bool (profanity.getD false)),
      ("themes", .arr (themes.map .str)),
      ("concerns", .arr (concerns.map .str)),
      ("positive_aspects", .arr (positive_aspects.map .str)),
      ("summary", .str (summary_match.getD "Video analyzed - see details below")),
      ("key_moments", .arr [])])
  | _, _, _, _ => none

/-- The guard of lines 739-743: the repaired value is accepted only when it
is a dict containing `'safety_score'` (a failed guard raises `ValueError`,
caught by the enclosing `except`, which proceeds to level 2). -/
def repair_accepted : Option Json → Bool
  | some (Json.obj fields) => fields.any fun kv => kv.1 = "safety_score"
  | _ => false

/-- The full cascade of lines 709-794 producing the `result` value.
`repair_json` is the opaque third-party `json_repair.repair_json` (its
exceptions are modelled by `none`).  No branch can raise: every failure
selects the next level, ending in the fixed fallback of lines 783-794. -/
def normalize_response (repair_json : String → Option Json) (text : String) :
    Json :=
  match json_loads text with
  | some v => v
  | none =>
    match repair_json text with
    | some (.obj fields) =>
      if jsonHasKey (.obj fields) "safety_score" then .obj fields
      else
        match regex_extract_result text with
        | some r => r
        | none =>
          .obj [("safety_score", .num 50), ("violence_score", .num 0),
            ("nsfw_score", .num 0), ("scary_score", .num 0),
            ("profanity_detected", .bool false), ("themes", .arr []),
            ("concerns", .arr [.str "Unable to fully analyze - API response error"]),
            ("positive_aspects", .arr []),
            ("summary", .str "Analysis incomplete due to technical error"),
            ("key_moments", .arr [])]
    | _ =>
      match regex_extract_result text with
      | some r => r
      | none =>
        .obj [("safety_score", .num 50), ("violence_score", .num 0),
          ("nsfw_score", .num 0), ("scary_score", .num 0),
          ("profanity_detected", .bool false), ("themes", .arr []),
          ("concerns", .arr [.str "Unable to fully analyze - API response error"]),
          ("positive_aspects", .arr []),
          ("summary", .str "Analysis incomplete due to technical error"),
          ("key_moments", .arr [])]

/-- C5 counterexample: on the well-formed response text `"\x7b\x7d"` (the
empty JSON object) the structured parse succeeds and normalization returns
the parsed empty mapping, which contains none of the required score keys —
refuting "always yields a mapping containing all required score keys".
(The parse succeeds, so the repair oracle is never consulted; it is
instantiated with the trivial oracle.) -/
theorem normalize_response_empty_object :
    normalize_response (fun _ => none) "\x7b\x7d" = Json.obj [] ∧
    jsonHasKey (normalize_response (fun _ => none) "\x7b\x7d")
      "safety_score" = false := ⟨rfl, rfl⟩

/-- C5 (amended): normalization is a total function of the response text
and the repair oracle (every parser, repair or extraction failure selects
the next cascade level, so no exception escapes), but when the structured
parse succeeds its value is returned unchanged — which may lack score keys
(see the counterexample).  When the structured parse fails, the repair
result is rejected unless it is a mapping containing `safety_score`, and
when the regex extraction of the four scores also fails, the fixed neutral
result is returned: `safety_score = 50`, all content scores 0, `themes`,
`positive_aspects` and `key_moments` empty, and `concerns` holding the
single explanatory message. -/
theorem normalize_response_neutral_fallback
    (repair_json : String → Option Json) (text : String)
    (hparse : json_loads text = none)
    (hrepair : repair_accepted (repair_json text) = false)
    (hregex : regex_extract_result text = none) :
    normalize_response repair_json text =
      Json.obj [("safety_score", .num 50), ("violence_score", .num 0),
        ("nsfw_score", .num 0), ("scary_score", .num 0),
        ("profanity_detected", .bool false), ("themes", .arr []),
        ("concerns", .arr [.str "Unable to fully analyze - API response error"]),
        ("positive_aspects", .arr []),
        ("summary", .str "Analysis incomplete due to technical error"),
        ("key_moments", .arr [])] := by
  unfold normalize_response
  rw [hparse]
  cases hrt : repair_json text with
  | none => rw [hregex]
  | some v =>
    cases v with
    | obj fields =>
      rw [hrt] at hrepair
      simp only [repair_accepted] at hrepair
      simp only [jsonHasKey, hrepair, if_false, Bool.false_eq_true]
      rw [hregex]
    | null => rw [hregex]
    | bool b => rw [hregex]
    | num n => rw [hregex]
    | str s => rw [hregex]
    | arr elems => rw [hregex]

/-- Concrete instance of the amended C5: on the non-JSON text
`"no scores here"` with a repair oracle that fails, normalization returns
the fixed neutral result. -/
theorem normalize_response_neutral_fallback_witness :
    normalize_response (fun _ => none) "no scores here" =
      Json.obj [("safety_score", .num 50), ("violence_score", .num 0),
        ("nsfw_score", .num 0), ("scary_score", .num 0),
        ("profanity_detected", .bool false), ("themes", .arr []),
        ("concerns", .arr [.str "Unable to fully analyze - API response error"]),
        ("positive_aspects", .arr []),
        ("summary", .str "Analysis incomplete due to technical error"),
        ("key_moments", .arr [])] :=
  normalize_response_neutral_fallback (fun _ => none) "no scores here"
    rfl rfl rfl

end VideoSafety
